import Mathlib

/-!
# Verification of the `DetectAndTrack` batch harness

Shallow embedding of `src/cpp/src/examples/DetectAndTrack.cpp`
(repository `tracking-by-detection`).

The embedding models

* paths as lists of components (`boost::filesystem::path` is compared and
  appended componentwise);
* the filesystem as a list of directories plus a list of files with their
  line contents;
* the detector/tracker composition (`ImageTracker` with a fresh `MCSORT`)
  as an abstract state machine, since the spec treats both as external
  collaborators specified only at their interface;
* wall-clock time as a rational-valued clock advanced by abstract
  per-frame costs (decode, detect-and-track, write), so that the
  timing instrumentation of the loop body can be reasoned about;
* `double` arithmetic of the throughput report as exact rationals with an
  explicit IEEE-style division (division by zero yields an infinity or NaN
  value instead of trapping).
-/

/-- A filesystem path, as its list of components.  `boost::filesystem`
appends with `/` componentwise and `operator<` compares paths
lexicographically componentwise, each component as a string. -/
abbrev FPath := List String

/-- Modelled from the spec: the bounding box of a `Tracking` — "top-left x,
top-left y, width, height — all in image pixel coordinates".  The class
definition itself is not part of the examined source file, which only reads
`bb.x1()`, `bb.y1()`, `bb.width`, `bb.height` when serializing. -/
structure BB where
  x1 : Int
  y1 : Int
  width : Int
  height : Int
deriving DecidableEq, Repr

/-- Modelled from the spec: a `Tracking` record — "`label`:
category/class identifier (string or integer class code); `ID`: a
tracker-assigned identity; `boundingBox`".  The examined source file only
reads `label`, `ID` and `bb` when serializing. -/
structure Tracking where
  label : String
  ID : Nat
  bb : BB
deriving DecidableEq, Repr

/-! ## Decimal rendering, as C++ stream insertion of integers -/

/-- Decimal digit characters of `n`, most significant first; this is the
text produced by `operator<<` on a nonnegative integer. -/
def natDecChars (n : Nat) : List Char :=
  if n = 0 then ['0'] else ((Nat.digits 10 n).map Nat.digitChar).reverse

/-- Decimal rendering of a natural number. -/
def natToDec (n : Nat) : String := ⟨natDecChars n⟩

/-- Decimal rendering of an integer (leading `-` for negatives), as
produced by `operator<<`. -/
def intDecChars : Int → List Char
  | .ofNat n => natDecChars n
  | .negSucc m => '-' :: natDecChars (m + 1)

/-- Decimal rendering of an integer. -/
def intToDec (i : Int) : String := ⟨intDecChars i⟩

/-! ## The output row (DetectAndTrack.cpp lines 81–90) -/

/-- One output row for a tracking, exactly the stream inserts at
DetectAndTrack.cpp:82–89: `frameCount`, `label`, `ID`, `x1`, `y1`,
`width`, `height`, then the constant suffix `1,-1,-1,-1`.  The trailing
`"\n"` of line 89 is modelled by keeping the artifact as a list of lines. -/
def row (frameCount : Nat) (t : Tracking) : String :=
  natToDec frameCount ++ "," ++ t.label ++ "," ++ natToDec t.ID ++ ","
    ++ intToDec t.bb.x1 ++ "," ++ intToDec t.bb.y1 ++ ","
    ++ intToDec t.bb.width ++ "," ++ intToDec t.bb.height ++ ","
    ++ "1,-1,-1,-1"

/-- The rows emitted for one frame: the inner loop at lines 81–90 writes
one row per tracking, in order. -/
def frameRows (frameCount : Nat) (trs : List Tracking) : List String :=
  trs.map (row frameCount)

/-! ## A parser for the declared column layout -/

/-- Is `c` a decimal digit? -/
def isDecDigit (c : Char) : Bool := decide ('0' ≤ c) && decide (c ≤ '9')

/-- Numeric value of a digit character. -/
def digitVal (c : Char) : Nat := c.toNat - 48

/-- Parse a nonempty all-digit character list as a natural number. -/
def parseNatChars (cs : List Char) : Option Nat :=
  if cs ≠ [] ∧ cs.all isDecDigit then
    some (cs.foldl (fun a c => a * 10 + digitVal c) 0)
  else none

/-- Parse an optional leading `-` followed by digits as an integer. -/
def parseIntChars : List Char → Option Int
  | [] => none
  | c :: rest =>
    if c = '-' then (parseNatChars rest).map (fun n => -(n : Int))
    else (parseNatChars (c :: rest)).map (fun n => (n : Int))

/-- Split a character list at every comma (auxiliary, with accumulator). -/
def splitCommaAux : List Char → List Char → List (List Char)
  | [], acc => [acc.reverse]
  | c :: cs, acc =>
    if c = ',' then acc.reverse :: splitCommaAux cs []
    else splitCommaAux cs (c :: acc)

/-- Split a character list at every comma. -/
def splitComma (cs : List Char) : List (List Char) := splitCommaAux cs []

/-- Join character lists with commas between them (the comma-separated
line layout). -/
def joinCommas : List (List Char) → List Char
  | [] => []
  | [f] => f
  | f :: fs => f ++ ',' :: joinCommas fs

/-- Read the declared column layout: 11 comma-separated fields, in the
order frameIndex, label, ID, x1, y1, width, height, then the constant
suffix `1,-1,-1,-1`. -/
def parseFields : List (List Char) → Option (Nat × Tracking)
  | [f0, f1, f2, f3, f4, f5, f6, s1, s2, s3, s4] =>
    if s1 = ['1'] ∧ s2 = ['-', '1'] ∧ s3 = ['-', '1'] ∧ s4 = ['-', '1'] then
      match parseNatChars f0, parseNatChars f2, parseIntChars f3, parseIntChars f4,
          parseIntChars f5, parseIntChars f6 with
      | some fi, some tid, some x, some y, some w, some h =>
          some (fi, ⟨⟨f1⟩, tid, ⟨x, y, w, h⟩⟩)
      | _, _, _, _, _, _ => none
    else none
  | _ => none

/-- Parse one output line according to the declared column layout. -/
def parseLine (s : String) : Option (Nat × Tracking) := parseFields (splitComma s.data)

/-- A label that fits the line-oriented, comma-separated format: it
contains no comma and no newline. -/
def labelOk (t : Tracking) : Prop :=
  (∀ c ∈ t.label.data, c ≠ ',') ∧ (∀ c ∈ t.label.data, c ≠ '\n')

instance (t : Tracking) : Decidable (labelOk t) := by
  unfold labelOk; infer_instance

/-! ## Filesystem model -/

/-- A snapshot of the filesystem: the set of existing directories and the
existing regular files with their contents (as lists of lines). -/
structure FileSystem where
  dirs : List FPath
  files : List (FPath × List String)
deriving DecidableEq, Repr

/-- Model of `boost::filesystem::is_directory`. -/
def FileSystem.isDirectory (fs : FileSystem) (p : FPath) : Bool := p ∈ fs.dirs

/-- Does a regular file exist at `p`? -/
def FileSystem.fileExists (fs : FileSystem) (p : FPath) : Bool := fs.files.any (·.1 = p)

/-- Model of `boost::filesystem::exists`: a directory or a file exists at `p`. -/
def FileSystem.pathExists (fs : FileSystem) (p : FPath) : Bool :=
  fs.isDirectory p || fs.fileExists p

/-- All nonempty prefixes of a path: the chain of directories
`create_directories` has to create. -/
def pathPrefixes (p : FPath) : List FPath :=
  (List.range p.length).map (fun k => p.take (k + 1))

/-- Model of `boost::filesystem::create_directories`: create the directory and every
missing ancestor. -/
def FileSystem.createDirectories (fs : FileSystem) (p : FPath) : FileSystem :=
  { fs with dirs := fs.dirs ++ (pathPrefixes p).filter (fun q => ¬ q ∈ fs.dirs) }

/-- Model of `ofstream::open` on a fresh path: an empty file appears. -/
def FileSystem.createFile (fs : FileSystem) (p : FPath) : FileSystem :=
  { fs with files := fs.files ++ [(p, [])] }

/-- Replace the contents of the file at `p`. -/
def FileSystem.writeFile (fs : FileSystem) (p : FPath) (content : List String) : FileSystem :=
  { fs with files := fs.files.map (fun e => if e.1 = p then (p, content) else e) }

/-- Contents of the file at `p`, if any. -/
def FileSystem.readFile (fs : FileSystem) (p : FPath) : Option (List String) :=
  (fs.files.find? (·.1 = p)).map (·.2)

/-- Model of `boost::filesystem::directory_iterator`: the names of the entries
(files or directories) sitting directly inside directory `d`.  The
iteration order is unspecified by the OS; the program sorts afterwards. -/
def FileSystem.readDir (fs : FileSystem) (d : FPath) : List String :=
  (fs.files.map Prod.fst ++ fs.dirs).filterMap
    (fun p => if p.dropLast = d then p.getLast? else none)

/-! ## Abstract detector/tracker and the timing model -/

/-- The per-sequence detector+tracker composition (`ImageTracker` over a
fresh `MCSORT`), abstracted as a state machine: `init` is the state of a
freshly constructed tracker, `step` consumes one frame (identified by its
image path) and yields the new state and the trackings reported for that
frame.  Detector and tracker internals are outside the examined file. -/
structure TrackerModel (σ : Type) where
  init : σ
  step : σ → FPath → σ × List Tracking

/-- Abstract wall-clock costs of the three stages of the loop body:
decoding the frame (`cv::imread`, line 72), the single detect-and-track
call (line 75), and writing the rows (lines 81–90). -/
structure Costs where
  decode : FPath → ℚ
  process : FPath → ℚ
  write : FPath → ℚ

/-- Tracker state after feeding the frames `ps`, starting from `st`. -/
def foldState {σ : Type} (T : TrackerModel σ) (st : σ) (ps : List FPath) : σ :=
  ps.foldl (fun s p => (T.step s p).1) st

/-! ## The per-frame loop (DetectAndTrack.cpp lines 69–92) -/

/-- Result of the frame loop: the clock after the last iteration, the
accumulated duration, the frame counter, the final tracker state and the
lines written so far. -/
structure LoopOut (σ : Type) where
  clock : ℚ
  cum : ℚ
  frames : Nat
  st : σ
  lines : List String
deriving Repr

/-- The loop of lines 71–92: decode the image, read the clock, run the
single detect-and-track call, read the clock again, add the elapsed
interval to `cum`, append one row per tracking, increment the frame
counter.  The clock advances by the abstract cost of each stage. -/
def frameLoop {σ : Type} (C : Costs) (T : TrackerModel σ) :
    List FPath → ℚ → ℚ → Nat → σ → List String → LoopOut σ
  | [], clock, cum, fc, st, out => ⟨clock, cum, fc, st, out⟩
  | p :: ps, clock, cum, fc, st, out =>
    let clockAfterDecode := clock + C.decode p
    let startTime := clockAfterDecode
    let stepRes := T.step st p
    let endTime := clockAfterDecode + C.process p
    let cum' := cum + (endTime - startTime)
    let out' := out ++ frameRows fc stepRes.2
    let clockAfterWrite := endTime + C.write p
    frameLoop C T ps clockAfterWrite cum' (fc + 1) stepRes.1 out'

/-! ## Paths of the harness -/

/-- The data root (`../data`, line 20); the absolute prefix up to the
working directory's parent is irrelevant to every claim and elided. -/
def dataDirPath : FPath := ["data"]

/-- The path `dataDirPath / sequencePath / "images"` (line 34). -/
def seqInputDir (s : String) : FPath := dataDirPath ++ [s, "images"]

/-- The path `dataDirPath / "results" / sequencePath / modelType` (line 41). -/
def seqOutputDir (s m : String) : FPath := dataDirPath ++ ["results", s, m]

/-- The path `outputDirPath / "track.txt"` (line 47). -/
def seqOutputFile (s m : String) : FPath := seqOutputDir s m ++ ["track.txt"]

/-- Lines 40–44: create the output directory (recursively) if absent. -/
def ensureOutputDir (fs : FileSystem) (s m : String) : FileSystem :=
  if fs.isDirectory (seqOutputDir s m) then fs else fs.createDirectories (seqOutputDir s m)

/-- The filesystem right after the output file has been opened
(lines 40–59), on the non-skip path. -/
def fsAfterOpen (fs : FileSystem) (s m : String) : FileSystem :=
  (ensureOutputDir fs s m).createFile (seqOutputFile s m)

/-- The full paths the directory iteration at lines 63–66 produces. -/
def imageFullPaths (fs : FileSystem) (s : String) : List FPath :=
  (fs.readDir (seqInputDir s)).map (fun n => seqInputDir s ++ [n])

/-- Model of `std::sort` over paths (line 67): `boost::filesystem::path` compares
lexicographically componentwise, i.e. the lexicographic order on
`List String`. -/
def sortPaths (ps : List FPath) : List FPath := ps.insertionSort (· ≤ ·)

/-! ## `detectAndTrack` (DetectAndTrack.cpp lines 28–95) -/

/-- The C++ function exits the process on a missing input directory; the
open-failure exit at lines 56–58 is an OS-level failure with no
counterpart in the model (opening a fresh file always succeeds here). -/
inductive Fatal where
  | dirNotFound (p : FPath)
deriving DecidableEq, Repr

/-- The values a successful `detectAndTrack` call hands back to `main`,
together with the evolved world: the filesystem, the clock, the
accumulated duration (milliseconds, exact), the frame count, the identity
of the tracker instance constructed for this sequence (if any), and the
next fresh instance identity. -/
structure SeqOk where
  fs : FileSystem
  clock : ℚ
  duration : ℚ
  frames : Nat
  trackerId : Option Nat
  nextId : Nat
deriving Repr

/-- The function `detectAndTrack` (lines 28–95).  `nextId` threads a fresh identity for
the tracker instance constructed at line 61, so that sharing of tracker
state between sequences is expressible.  A fatal `exit` carries the
filesystem at the moment of termination. -/
def detectAndTrack {σ : Type} (C : Costs) (T : TrackerModel σ) (fs : FileSystem)
    (clock : ℚ) (nextId : Nat) (sequencePath modelType : String) :
    Except (Fatal × FileSystem) SeqOk :=
  -- lines 33–38: make sure the input directory exists, else exit
  if fs.isDirectory (seqInputDir sequencePath) = false then
    .error (.dirNotFound (seqInputDir sequencePath), fs)
  -- lines 40–44 (`ensureOutputDir`): create the output directory if absent;
  -- lines 46–51: if the output file already exists, skip the sequence
  else if (ensureOutputDir fs sequencePath modelType).pathExists
      (seqOutputFile sequencePath modelType) then
    .ok ⟨ensureOutputDir fs sequencePath modelType, clock, 0, 0, none, nextId⟩
  else
    -- lines 53–59 (`fsAfterOpen`): open the output file;
    -- line 61: construct a fresh ImageTracker with a fresh MCSORT;
    -- lines 63–67: enumerate and sort the image paths;
    -- lines 69–92: the frame loop, from the fresh tracker state;
    -- lines 93–94: close the stream, return duration and frame count
    (fun r => .ok ⟨(fsAfterOpen fs sequencePath modelType).writeFile
          (seqOutputFile sequencePath modelType) r.lines,
        r.clock, r.cum, r.frames, some nextId, nextId + 1⟩)
      (frameLoop C T
        (sortPaths (imageFullPaths (fsAfterOpen fs sequencePath modelType) sequencePath))
        clock 0 0 T.init [])

/-! ## IEEE-style division for the throughput report -/

/-- The value of a C++ `double` expression in the report: a finite exact
rational, an infinity, or NaN. -/
inductive FPVal where
  | finite (q : ℚ)
  | posInf
  | negInf
  | nan
deriving DecidableEq, Repr

/-- IEEE-754 division of (exactly represented) operands: dividing by zero
does not trap; it yields `±∞` for a nonzero numerator and NaN for `0/0`.
Rounding of finite quotients is immaterial to the claims and elided. -/
def fpDiv (x y : ℚ) : FPVal :=
  if y = 0 then
    if x = 0 then .nan else if 0 < x then .posInf else .negInf
  else .finite (x / y)

/-- Model of `duration_cast<milliseconds>` on a `double`-millisecond duration:
truncation toward zero. -/
def ratTrunc (q : ℚ) : Int := if 0 ≤ q then ⌊q⌋ else ⌈q⌉

/-- The fps figure printed at lines 156 and 163:
`double(frameCount * 1000) / durationMs`. -/
def reportedFps (frames : Nat) (durationMs : Int) : FPVal :=
  fpDiv ((frames : ℚ) * 1000) (durationMs : ℚ)

/-! ## The batch driver (`main`, DetectAndTrack.cpp lines 99–169) -/

/-- What `main` prints for one sequence (lines 152–156), plus the identity
of the tracker instance the sequence used (bookkeeping of the model). -/
structure SeqReport where
  name : String
  durationMs : Int
  fps : FPVal
  frames : Nat
  trackerId : Option Nat
deriving Repr

/-- The state of a completed batch run: final filesystem and clock, the
per-sequence reports, the accumulated duration (line 157, exact), the
printed total (lines 161–163) and the next fresh tracker identity. -/
structure BatchOk where
  fs : FileSystem
  clock : ℚ
  reports : List SeqReport
  totalDurationQ : ℚ
  totalMs : Int
  totalFps : FPVal
  totalFrames : Nat
  nextId : Nat
deriving Repr

/-- The `while (std::getline(...))` loop of lines 151–159 followed by the
total report of lines 161–163.  `cumDur` and `cumFrames` carry
`cumulativeDuration` and `cumulativeFrameCount`; each line of the batch
file is handed verbatim to `detectAndTrack`. -/
def runBatchAux {σ : Type} (C : Costs) (T : TrackerModel σ) (modelType : String) :
    FileSystem → ℚ → Nat → ℚ → Nat → List SeqReport → List String →
    Except (Fatal × FileSystem) BatchOk
  | fs, clock, nextId, cumDur, cumFrames, reports, [] =>
    let totalMs := ratTrunc cumDur
    .ok ⟨fs, clock, reports, cumDur, totalMs, reportedFps cumFrames totalMs, cumFrames, nextId⟩
  | fs, clock, nextId, cumDur, cumFrames, reports, name :: rest =>
    match detectAndTrack C T fs clock nextId name modelType with
    | .error e => .error e
    | .ok r =>
      let ms := ratTrunc r.duration
      let rep : SeqReport := ⟨name, ms, reportedFps r.frames ms, r.frames, r.trackerId⟩
      runBatchAux C T modelType r.fs r.clock r.nextId (cumDur + r.duration)
        (cumFrames + r.frames) (reports ++ [rep]) rest

/-- The batch run as `main` performs it.  `cumulativeFrameCount` starts at
`0` (line 148); `cumulativeDuration` (line 147) is only default-initialized
— for a `double`-rep `chrono::duration` this leaves the value
indeterminate — so the initial accumulator content is a parameter
`initDur` of the model rather than the constant `0`. -/
def runBatch {σ : Type} (C : Costs) (T : TrackerModel σ) (modelType : String)
    (fs : FileSystem) (clock : ℚ) (initDur : ℚ) (batchLines : List String) :
    Except (Fatal × FileSystem) BatchOk :=
  runBatchAux C T modelType fs clock 0 initDur 0 [] batchLines

/-! ## Reference definitions following the spec's words -/

/-- Follows the spec's words: "the output artifact contains exactly N
frame-groups of rows, each row's frameIndex matching the 0-based position
in FrameSource's lexicographic enumeration" — the group of rows of frame
number `i`, walking the enumerated frames in order while threading the
tracker state. -/
def specGroups {σ : Type} (T : TrackerModel σ) : σ → Nat → List FPath → List (List String)
  | _, _, [] => []
  | st, i, p :: ps =>
    frameRows i (T.step st p).2 :: specGroups T (T.step st p).1 (i + 1) ps

/-- The reference artifact contents: the frame-groups, concatenated in
frame order. -/
def specRows {σ : Type} (T : TrackerModel σ) (st : σ) (i : Nat) (ps : List FPath) :
    List String :=
  (specGroups T st i ps).flatten

/-! ## Round-trip lemmas for the row format -/

theorem digitVal_digitChar {d : Nat} (h : d < 10) : digitVal (Nat.digitChar d) = d := by
  interval_cases d <;> decide

theorem digitChar_isDecDigit {d : Nat} (h : d < 10) :
    isDecDigit (Nat.digitChar d) = true := by
  interval_cases d <;> decide

theorem natDecChars_ne_nil (n : Nat) : natDecChars n ≠ [] := by
  unfold natDecChars
  split
  · simp
  · rename_i h
    intro hcontra
    rw [List.reverse_eq_nil_iff, List.map_eq_nil_iff] at hcontra
    exact h (Nat.digits_eq_nil_iff_eq_zero.mp hcontra)

theorem mem_natDecChars_digit {n : Nat} {c : Char} (h : c ∈ natDecChars n) :
    isDecDigit c = true := by
  unfold natDecChars at h
  split at h
  · simp at h; subst h; decide
  · rw [List.mem_reverse] at h
    obtain ⟨d, hd, rfl⟩ := List.mem_map.mp h
    exact digitChar_isDecDigit (Nat.digits_lt_base (by norm_num) hd)

theorem natDecChars_all_digits (n : Nat) : (natDecChars n).all isDecDigit = true := by
  rw [List.all_eq_true]
  exact fun c hc => mem_natDecChars_digit hc

theorem mem_natDecChars_ne_comma {n : Nat} {c : Char} (h : c ∈ natDecChars n) :
    c ≠ ',' := by
  intro hc
  have hd := mem_natDecChars_digit h
  rw [hc] at hd
  exact absurd hd (by decide)

theorem mem_intDecChars_ne_comma {i : Int} {c : Char} (h : c ∈ intDecChars i) :
    c ≠ ',' := by
  cases i with
  | ofNat n => exact mem_natDecChars_ne_comma h
  | negSucc m =>
    simp only [intDecChars, List.mem_cons] at h
    rcases h with rfl | h
    · decide
    · exact mem_natDecChars_ne_comma h

theorem foldl_digits_eq_ofDigits (L : List Nat) (hL : ∀ d ∈ L, d < 10) (a : Nat) :
    ((L.map Nat.digitChar).reverse).foldl (fun x c => x * 10 + digitVal c) a
      = a * 10 ^ L.length + Nat.ofDigits 10 L := by
  induction L generalizing a with
  | nil => simp [Nat.ofDigits]
  | cons d L ih =>
    have hd : d < 10 := hL d (by simp)
    have hL' : ∀ e ∈ L, e < 10 := fun e he => hL e (by simp [he])
    simp only [List.map_cons, List.reverse_cons, List.foldl_append, List.foldl_cons,
      List.foldl_nil]
    rw [ih hL' a, digitVal_digitChar hd, Nat.ofDigits_cons, List.length_cons]
    ring

theorem parseNatChars_natDecChars (n : Nat) : parseNatChars (natDecChars n) = some n := by
  unfold parseNatChars
  rw [if_pos ⟨natDecChars_ne_nil n, natDecChars_all_digits n⟩]
  congr 1
  by_cases h : n = 0
  · subst h; decide
  · have hu : natDecChars n = ((Nat.digits 10 n).map Nat.digitChar).reverse := by
      unfold natDecChars; rw [if_neg h]
    rw [hu, foldl_digits_eq_ofDigits (Nat.digits 10 n)
      (fun d hd => Nat.digits_lt_base (by norm_num) hd) 0]
    simp [Nat.ofDigits_digits]

theorem parseIntChars_intDecChars (i : Int) : parseIntChars (intDecChars i) = some i := by
  cases i with
  | ofNat n =>
    obtain ⟨c, cs, hc⟩ : ∃ c cs, natDecChars n = c :: cs := by
      cases h : natDecChars n with
      | nil => exact absurd h (natDecChars_ne_nil n)
      | cons c cs => exact ⟨c, cs, rfl⟩
    show parseIntChars (natDecChars n) = some (Int.ofNat n)
    have hcd : isDecDigit c = true := mem_natDecChars_digit (by rw [hc]; simp)
    have hne : c ≠ '-' := by
      intro hcontra; rw [hcontra] at hcd; exact absurd hcd (by decide)
    rw [hc]
    show (if c = '-' then (parseNatChars cs).map (fun n => -(n : Int))
      else (parseNatChars (c :: cs)).map (fun n => (n : Int))) = some (Int.ofNat n)
    rw [if_neg hne, ← hc, parseNatChars_natDecChars]
    rfl
  | negSucc m =>
    show (if ('-' : Char) = '-' then (parseNatChars (natDecChars (m + 1))).map (fun n => -(n : Int))
      else (parseNatChars ('-' :: natDecChars (m + 1))).map (fun n => (n : Int)))
      = some (Int.negSucc m)
    rw [if_pos rfl, parseNatChars_natDecChars]
    simp [Int.negSucc_eq]

theorem splitCommaAux_append (xs : List Char) (h : ∀ c ∈ xs, c ≠ ',') :
    ∀ (rest acc : List Char),
      splitCommaAux (xs ++ rest) acc = splitCommaAux rest (xs.reverse ++ acc) := by
  induction xs with
  | nil => intro rest acc; simp
  | cons c cs ih =>
    intro rest acc
    have hc : c ≠ ',' := h c (by simp)
    have h' : ∀ e ∈ cs, e ≠ ',' := fun e he => h e (by simp [he])
    simp only [List.cons_append, splitCommaAux, if_neg hc, List.append_eq]
    rw [ih h' rest (c :: acc)]
    simp

theorem splitCommaAux_no_comma (xs : List Char) (h : ∀ c ∈ xs, c ≠ ',')
    (acc : List Char) : splitCommaAux xs acc = [acc.reverse ++ xs] := by
  have hx := splitCommaAux_append xs h [] acc
  rw [List.append_nil] at hx
  rw [hx]
  simp [splitCommaAux]

theorem splitComma_joinCommas (fl : List (List Char)) (hne : fl ≠ [])
    (h : ∀ f ∈ fl, ∀ c ∈ f, c ≠ ',') : splitComma (joinCommas fl) = fl := by
  induction fl with
  | nil => exact absurd rfl hne
  | cons f rest ih =>
    cases rest with
    | nil =>
      show splitComma (joinCommas [f]) = [f]
      unfold splitComma joinCommas
      rw [splitCommaAux_no_comma f (h f (by simp))]
      simp
    | cons f' fl' =>
      have hj : joinCommas (f :: f' :: fl') = f ++ ',' :: joinCommas (f' :: fl') := rfl
      unfold splitComma
      rw [hj, splitCommaAux_append f (h f (by simp)) (',' :: joinCommas (f' :: fl')) []]
      have hr := ih (by simp) (fun g hg => h g (by simp [hg]))
      unfold splitComma at hr
      simp [splitCommaAux, hr]

/-- The eleven fields of a row, in declared column order. -/
def rowFields (i : Nat) (t : Tracking) : List (List Char) :=
  [natDecChars i, t.label.data, natDecChars t.ID, intDecChars t.bb.x1,
   intDecChars t.bb.y1, intDecChars t.bb.width, intDecChars t.bb.height,
   ['1'], ['-', '1'], ['-', '1'], ['-', '1']]

theorem row_data (i : Nat) (t : Tracking) : (row i t).data = joinCommas (rowFields i t) := by
  simp only [row, rowFields, joinCommas, String.data_append, natToDec, intToDec]
  simp [List.append_assoc]

theorem rowFields_no_comma (i : Nat) (t : Tracking)
    (h : ∀ c ∈ t.label.data, c ≠ ',') : ∀ f ∈ rowFields i t, ∀ c ∈ f, c ≠ ',' := by
  intro f hf
  simp only [rowFields, List.mem_cons, List.not_mem_nil, or_false] at hf
  rcases hf with rfl | rfl | rfl | rfl | rfl | rfl | rfl | rfl | rfl | rfl | rfl
  · exact fun c hc => mem_natDecChars_ne_comma hc
  · exact h
  · exact fun c hc => mem_natDecChars_ne_comma hc
  · exact fun c hc => mem_intDecChars_ne_comma hc
  · exact fun c hc => mem_intDecChars_ne_comma hc
  · exact fun c hc => mem_intDecChars_ne_comma hc
  · exact fun c hc => mem_intDecChars_ne_comma hc
  · intro c hc; simp at hc; subst hc; decide
  · intro c hc; simp at hc; rcases hc with rfl | rfl <;> decide
  · intro c hc; simp at hc; rcases hc with rfl | rfl <;> decide
  · intro c hc; simp at hc; rcases hc with rfl | rfl <;> decide

theorem parseFields_eleven (f0 f1 f2 f3 f4 f5 f6 : List Char) :
    parseFields [f0, f1, f2, f3, f4, f5, f6, ['1'], ['-', '1'], ['-', '1'], ['-', '1']]
      = match parseNatChars f0, parseNatChars f2, parseIntChars f3, parseIntChars f4,
          parseIntChars f5, parseIntChars f6 with
        | some fi, some tid, some x, some y, some w, some h =>
            some (fi, ⟨⟨f1⟩, tid, ⟨x, y, w, h⟩⟩)
        | _, _, _, _, _, _ => none := rfl

theorem parseLine_row (i : Nat) (t : Tracking)
    (h : ∀ c ∈ t.label.data, c ≠ ',') : parseLine (row i t) = some (i, t) := by
  obtain ⟨label, tid, bb⟩ := t
  obtain ⟨x, y, w, hgt⟩ := bb
  obtain ⟨data⟩ := label
  unfold parseLine
  rw [row_data, splitComma_joinCommas _ (by simp [rowFields]) (rowFields_no_comma i _ h)]
  show parseFields [natDecChars i, data, natDecChars tid, intDecChars x, intDecChars y,
    intDecChars w, intDecChars hgt, ['1'], ['-', '1'], ['-', '1'], ['-', '1']] = _
  rw [parseFields_eleven, parseNatChars_natDecChars, parseNatChars_natDecChars,
    parseIntChars_intDecChars, parseIntChars_intDecChars, parseIntChars_intDecChars,
    parseIntChars_intDecChars]

/-! ## Characterizing the frame loop -/

theorem specRows_nil {σ : Type} (T : TrackerModel σ) (st : σ) (i : Nat) :
    specRows T st i [] = [] := rfl

theorem specRows_cons {σ : Type} (T : TrackerModel σ) (st : σ) (i : Nat)
    (p : FPath) (ps : List FPath) :
    specRows T st i (p :: ps)
      = frameRows i (T.step st p).2 ++ specRows T (T.step st p).1 (i + 1) ps := by
  simp [specRows, specGroups]

theorem specGroups_length {σ : Type} (T : TrackerModel σ) (ps : List FPath) :
    ∀ (st : σ) (i : Nat), (specGroups T st i ps).length = ps.length := by
  induction ps with
  | nil => intro st i; rfl
  | cons p ps ih => intro st i; simp [specGroups, ih]

theorem specGroups_getElem {σ : Type} (T : TrackerModel σ) (ps : List FPath) :
    ∀ (st : σ) (i k : Nat) (hk : k < ps.length)
      (hk2 : k < (specGroups T st i ps).length),
      (specGroups T st i ps)[k]
        = frameRows (i + k) (T.step (foldState T st (ps.take k)) ps[k]).2 := by
  induction ps with
  | nil => intro st i k hk hk2; exact absurd hk (by simp)
  | cons p ps ih =>
    intro st i k hk hk2
    cases k with
    | zero => simp [specGroups, foldState]
    | succ k =>
      have hk' : k < ps.length := by simpa using hk
      have hk2' : k < (specGroups T (T.step st p).1 (i + 1) ps).length := by
        rw [specGroups_length]; exact hk'
      have heq := ih (T.step st p).1 (i + 1) k hk' hk2'
      simp only [specGroups, List.getElem_cons_succ]
      rw [heq]
      have hidx : i + 1 + k = i + (k + 1) := by omega
      have hst : foldState T (T.step st p).1 (ps.take k)
          = foldState T st ((p :: ps).take (k + 1)) := by simp [foldState]
      rw [hidx, hst]

theorem frameLoop_eq {σ : Type} (C : Costs) (T : TrackerModel σ) (ps : List FPath) :
    ∀ (clock cum : ℚ) (fc : Nat) (st : σ) (out : List String),
      frameLoop C T ps clock cum fc st out =
        ⟨clock + (ps.map (fun p => C.decode p + C.process p + C.write p)).sum,
         cum + (ps.map C.process).sum,
         fc + ps.length,
         foldState T st ps,
         out ++ specRows T st fc ps⟩ := by
  induction ps with
  | nil =>
    intro clock cum fc st out
    simp [frameLoop, foldState, specRows, specGroups]
  | cons p ps ih =>
    intro clock cum fc st out
    simp only [frameLoop]
    rw [ih]
    simp only [LoopOut.mk.injEq, List.map_cons, List.sum_cons, List.length_cons]
    refine ⟨by ring, by ring, by omega, by simp [foldState], ?_⟩
    rw [specRows_cons]
    simp [List.append_assoc]

/-! ## Filesystem lemmas -/

theorem isDirectory_iff (fs : FileSystem) (p : FPath) :
    fs.isDirectory p = true ↔ p ∈ fs.dirs := by
  simp [FileSystem.isDirectory]

theorem ensureOutputDir_files (fs : FileSystem) (s m : String) :
    (ensureOutputDir fs s m).files = fs.files := by
  unfold ensureOutputDir
  split <;> rfl

theorem ensureOutputDir_fileExists (fs : FileSystem) (s m : String) (p : FPath) :
    (ensureOutputDir fs s m).fileExists p = fs.fileExists p := by
  unfold FileSystem.fileExists
  rw [ensureOutputDir_files]

theorem mem_pathPrefixes_self (p : FPath) (hp : p ≠ []) : p ∈ pathPrefixes p := by
  unfold pathPrefixes
  have hl : 0 < p.length := List.length_pos.mpr hp
  refine List.mem_map.mpr ⟨p.length - 1, ?_, ?_⟩
  · rw [List.mem_range]; omega
  · have h1 : p.length - 1 + 1 = p.length := by omega
    rw [h1, List.take_length]

theorem createDirectories_isDirectory_of_mem (fs : FileSystem) (p q : FPath)
    (hq : q ∈ pathPrefixes p) : (fs.createDirectories p).isDirectory q = true := by
  rw [isDirectory_iff]
  unfold FileSystem.createDirectories
  simp only [List.mem_append, List.mem_filter, decide_eq_true_eq]
  by_cases h : q ∈ fs.dirs
  · exact Or.inl h
  · exact Or.inr ⟨hq, by simpa using h⟩

theorem ensureOutputDir_isDirectory (fs : FileSystem) (s m : String) :
    (ensureOutputDir fs s m).isDirectory (seqOutputDir s m) = true := by
  unfold ensureOutputDir
  split
  · assumption
  · exact createDirectories_isDirectory_of_mem fs _ _
      (mem_pathPrefixes_self _ (by simp [seqOutputDir, dataDirPath]))

/-! ## The three paths through `detectAndTrack` -/

theorem detectAndTrack_fatal {σ : Type} (C : Costs) (T : TrackerModel σ) (fs : FileSystem)
    (clock : ℚ) (nextId : Nat) (s m : String)
    (h1 : fs.isDirectory (seqInputDir s) = false) :
    detectAndTrack C T fs clock nextId s m = .error (.dirNotFound (seqInputDir s), fs) := by
  unfold detectAndTrack
  rw [h1]
  rfl

theorem detectAndTrack_skip {σ : Type} (C : Costs) (T : TrackerModel σ) (fs : FileSystem)
    (clock : ℚ) (nextId : Nat) (s m : String)
    (h1 : fs.isDirectory (seqInputDir s) = true)
    (h2 : (ensureOutputDir fs s m).pathExists (seqOutputFile s m) = true) :
    detectAndTrack C T fs clock nextId s m
      = .ok ⟨ensureOutputDir fs s m, clock, 0, 0, none, nextId⟩ := by
  unfold detectAndTrack
  rw [h1, h2]
  rfl

theorem detectAndTrack_run {σ : Type} (C : Costs) (T : TrackerModel σ) (fs : FileSystem)
    (clock : ℚ) (nextId : Nat) (s m : String)
    (h1 : fs.isDirectory (seqInputDir s) = true)
    (h2 : (ensureOutputDir fs s m).pathExists (seqOutputFile s m) = false) :
    detectAndTrack C T fs clock nextId s m =
      .ok ⟨(fsAfterOpen fs s m).writeFile (seqOutputFile s m)
            (specRows T T.init 0 (sortPaths (imageFullPaths (fsAfterOpen fs s m) s))),
          clock + ((sortPaths (imageFullPaths (fsAfterOpen fs s m) s)).map
            (fun p => C.decode p + C.process p + C.write p)).sum,
          ((sortPaths (imageFullPaths (fsAfterOpen fs s m) s)).map C.process).sum,
          (sortPaths (imageFullPaths (fsAfterOpen fs s m) s)).length,
          some nextId, nextId + 1⟩ := by
  unfold detectAndTrack
  rw [h1, h2]
  simp only [Bool.true_eq_false, if_false, Bool.false_eq_true]
  rw [frameLoop_eq]
  simp [fsAfterOpen]

/-! ## Sorting and read-back facts -/

theorem sortPaths_sorted (ps : List FPath) : List.Sorted (· ≤ ·) (sortPaths ps) :=
  List.sorted_insertionSort _ ps

theorem sortPaths_perm (ps : List FPath) : (sortPaths ps).Perm ps :=
  List.perm_insertionSort _ ps

theorem sortPaths_length (ps : List FPath) : (sortPaths ps).length = ps.length :=
  (sortPaths_perm ps).length_eq

theorem fileExists_iff (fs : FileSystem) (p : FPath) :
    fs.fileExists p = true ↔ ∃ e ∈ fs.files, e.1 = p := by
  simp [FileSystem.fileExists, List.any_eq_true]

theorem find?_keyed_append (l : List (FPath × List String)) (p : FPath) (L : List String)
    (h : ∀ e ∈ l, ¬(e.1 = p)) :
    (l ++ [(p, L)]).find? (fun e => e.1 = p) = some (p, L) := by
  induction l with
  | nil => simp
  | cons e rest ih =>
    have he : ¬(e.1 = p) := h e (by simp)
    rw [List.cons_append, List.find?_cons_of_neg _ (by simpa using he)]
    exact ih (fun e' he' => h e' (by simp [he']))

theorem map_overwrite_of_not_mem (l : List (FPath × List String)) (p : FPath)
    (L : List String) (h : ∀ e ∈ l, ¬(e.1 = p)) :
    l.map (fun e => if e.1 = p then (p, L) else e) = l := by
  induction l with
  | nil => rfl
  | cons e rest ih =>
    rw [List.map_cons, if_neg (h e (by simp)), ih (fun e' he' => h e' (by simp [he']))]

theorem readFile_writeFile_createFile (fs1 : FileSystem) (p : FPath) (L : List String)
    (h : fs1.fileExists p = false) :
    ((fs1.createFile p).writeFile p L).readFile p = some L := by
  have hne : ∀ e ∈ fs1.files, ¬(e.1 = p) := by
    intro e he hcontra
    rw [← Bool.not_eq_true, fileExists_iff] at h
    exact h ⟨e, he, hcontra⟩
  unfold FileSystem.createFile FileSystem.writeFile FileSystem.readFile
  rw [List.map_append, map_overwrite_of_not_mem fs1.files p L hne]
  have hsing : [((p : FPath), ([] : List String))].map
      (fun e => if e.1 = p then (p, L) else e) = [(p, L)] := by simp
  rw [hsing, find?_keyed_append fs1.files p L hne]
  rfl

/-! ## Concrete instances for witnesses -/

/-- A cost model where every stage takes no time. -/
def zeroCosts : Costs := ⟨fun _ => 0, fun _ => 0, fun _ => 0⟩

/-- A detector/tracker that never reports anything. -/
def silentTracker : TrackerModel Unit := ⟨(), fun st _ => (st, [])⟩

/-- An empty filesystem. -/
def emptyFS : FileSystem := ⟨[], []⟩

/-- A filesystem where sequence `"a"` has an images directory and the
output artifact (configuration `"m"`) already exists. -/
def fsSkip : FileSystem :=
  ⟨[["data", "a", "images"], ["data", "results", "a", "m"]],
   [(["data", "results", "a", "m", "track.txt"], ["0,car,1,2,3,4,5,1,-1,-1,-1"])]⟩

/-- Like `fsSkip`, but the output directory chain is absent although the
artifact file itself exists. -/
def fsSkipNoDir : FileSystem :=
  ⟨[["data", "b", "images"]], [(["data", "results", "b", "m", "track.txt"], [])]⟩

/-! ## Claim C1 -/

/-- Claim C1: for every frame and every `Tracking` it yields, the emission
loop writes exactly one line per `Tracking` (`frameRows`), that line being
`row i t` — the fixed field order frameIndex, label, ID, x1, y1, width,
height followed by the constant suffix `1,-1,-1,-1` — and a parser reading
the declared column layout (`parseLine`) recovers frameIndex, label, ID
and the bounding box losslessly, for every label that fits the
comma-separated, line-oriented format. -/
theorem C1_row_format_roundtrip :
    (∀ (i : Nat) (trs : List Tracking), (frameRows i trs).length = trs.length ∧
      ∀ (k : Nat) (hk : k < trs.length) (hk2 : k < (frameRows i trs).length),
        (frameRows i trs)[k] = row i trs[k])
    ∧ (∀ (i : Nat) (t : Tracking), labelOk t → parseLine (row i t) = some (i, t)) := by
  refine ⟨fun i trs => ⟨by simp [frameRows], fun k hk hk2 => by simp [frameRows]⟩, ?_⟩
  intro i t h
  exact parseLine_row i t h.1

/-- Witness for C1 at a concrete tracking. -/
theorem C1_row_format_roundtrip_witness :
    labelOk ⟨"car", 1, ⟨10, 20, 30, 40⟩⟩ ∧
      parseLine (row 0 ⟨"car", 1, ⟨10, 20, 30, 40⟩⟩)
        = some (0, ⟨"car", 1, ⟨10, 20, 30, 40⟩⟩) :=
  ⟨by decide, C1_row_format_roundtrip.2 0 _ (by decide)⟩

/-! ## Claim C3 -/

/-- Claim C3: if the output artifact already exists when the sequence is
opened, the sequence is skipped entirely: the call returns zero duration,
zero frames and no tracker instance, every file (the artifact included) is
left untouched, and the outcome is identical for any detector/tracker and
any cost model — no detector or tracker work happens. -/
theorem C3_skip_existing_artifact {σ₁ σ₂ : Type} (C₁ C₂ : Costs) (T₁ : TrackerModel σ₁)
    (T₂ : TrackerModel σ₂) (fs : FileSystem) (clock : ℚ) (nextId : Nat) (s m : String)
    (h1 : fs.isDirectory (seqInputDir s) = true)
    (h2 : fs.fileExists (seqOutputFile s m) = true) :
    detectAndTrack C₁ T₁ fs clock nextId s m
        = .ok ⟨ensureOutputDir fs s m, clock, 0, 0, none, nextId⟩
      ∧ (ensureOutputDir fs s m).files = fs.files
      ∧ detectAndTrack C₁ T₁ fs clock nextId s m
          = detectAndTrack C₂ T₂ fs clock nextId s m := by
  have h2' : (ensureOutputDir fs s m).pathExists (seqOutputFile s m) = true := by
    unfold FileSystem.pathExists
    rw [ensureOutputDir_fileExists, h2, Bool.or_true]
  refine ⟨detectAndTrack_skip C₁ T₁ fs clock nextId s m h1 h2',
    ensureOutputDir_files fs s m, ?_⟩
  rw [detectAndTrack_skip C₁ T₁ fs clock nextId s m h1 h2',
    detectAndTrack_skip C₂ T₂ fs clock nextId s m h1 h2']

/-- Witness for C3 at a concrete filesystem. -/
theorem C3_skip_existing_artifact_witness :
    fsSkip.isDirectory (seqInputDir "a") = true ∧
    fsSkip.fileExists (seqOutputFile "a" "m") = true ∧
    (detectAndTrack zeroCosts silentTracker fsSkip 0 0 "a" "m"
        = .ok ⟨ensureOutputDir fsSkip "a" "m", 0, 0, 0, none, 0⟩
      ∧ (ensureOutputDir fsSkip "a" "m").files = fsSkip.files
      ∧ detectAndTrack zeroCosts silentTracker fsSkip 0 0 "a" "m"
          = detectAndTrack zeroCosts silentTracker fsSkip 0 0 "a" "m") :=
  ⟨by decide, by decide,
    C3_skip_existing_artifact zeroCosts zeroCosts silentTracker silentTracker fsSkip
      0 0 "a" "m" (by decide) (by decide)⟩

/-! ## Claim C9 -/

/-- Claim C9: the output directory is created (recursively, if absent)
before the artifact-existence check is performed, so the directory
creation side effect persists even when the sequence is then skipped
because its artifact already exists. -/
theorem C9_output_dir_created_even_when_skipped {σ : Type} (C : Costs)
    (T : TrackerModel σ) (fs : FileSystem) (clock : ℚ) (nextId : Nat) (s m : String)
    (h1 : fs.isDirectory (seqInputDir s) = true)
    (h2 : fs.fileExists (seqOutputFile s m) = true) :
    ∃ r : SeqOk, detectAndTrack C T fs clock nextId s m = .ok r ∧
      r.duration = 0 ∧ r.frames = 0 ∧
      r.fs.isDirectory (seqOutputDir s m) = true ∧
      (fs.isDirectory (seqOutputDir s m) = false →
        ∀ q ∈ pathPrefixes (seqOutputDir s m), r.fs.isDirectory q = true) := by
  have h2' : (ensureOutputDir fs s m).pathExists (seqOutputFile s m) = true := by
    unfold FileSystem.pathExists
    rw [ensureOutputDir_fileExists, h2, Bool.or_true]
  refine ⟨_, detectAndTrack_skip C T fs clock nextId s m h1 h2', rfl, rfl,
    ensureOutputDir_isDirectory fs s m, ?_⟩
  intro hno q hq
  show (ensureOutputDir fs s m).isDirectory q = true
  unfold ensureOutputDir
  rw [if_neg (by simp [hno])]
  exact createDirectories_isDirectory_of_mem fs _ q hq

/-- Witness for C9 at a concrete filesystem whose output directory chain
is initially absent. -/
theorem C9_output_dir_created_even_when_skipped_witness :
    fsSkipNoDir.isDirectory (seqInputDir "b") = true ∧
    fsSkipNoDir.fileExists (seqOutputFile "b" "m") = true ∧
    fsSkipNoDir.isDirectory (seqOutputDir "b" "m") = false ∧
    (∃ r : SeqOk, detectAndTrack zeroCosts silentTracker fsSkipNoDir 0 0 "b" "m" = .ok r ∧
      r.duration = 0 ∧ r.frames = 0 ∧
      r.fs.isDirectory (seqOutputDir "b" "m") = true ∧
      (fsSkipNoDir.isDirectory (seqOutputDir "b" "m") = false →
        ∀ q ∈ pathPrefixes (seqOutputDir "b" "m"), r.fs.isDirectory q = true)) :=
  ⟨by decide, by decide, by decide,
    C9_output_dir_created_even_when_skipped zeroCosts silentTracker fsSkipNoDir
      0 0 "b" "m" (by decide) (by decide)⟩

/-! ## Claim C2 -/

/-- The enumeration the frame loop iterates over: the directory listing of
the sequence's images directory (taken after the output file was opened,
as the program does), sorted lexicographically. -/
def seqFrames (fs : FileSystem) (s m : String) : List FPath :=
  sortPaths (imageFullPaths (fsAfterOpen fs s m) s)

/-- Claim C2: on the processing path, the frames are iterated in
lexicographic path order (the enumeration is a sorted permutation of the
directory listing), the artifact contains exactly one contiguous
frame-group per listed file — `N` groups for `N` entries — and every row
of group `k` is serialized with frameIndex `k`, the 0-based position of
its frame in the lexicographic enumeration; the returned frame count is
`N` as well. -/
theorem C2_lexicographic_frame_enumeration {σ : Type} (C : Costs) (T : TrackerModel σ)
    (fs : FileSystem) (clock : ℚ) (nextId : Nat) (s m : String)
    (h1 : fs.isDirectory (seqInputDir s) = true)
    (h2 : (ensureOutputDir fs s m).pathExists (seqOutputFile s m) = false) :
    ∃ r : SeqOk, detectAndTrack C T fs clock nextId s m = .ok r ∧
      List.Sorted (· ≤ ·) (seqFrames fs s m) ∧
      (seqFrames fs s m).Perm (imageFullPaths (fsAfterOpen fs s m) s) ∧
      r.fs.readFile (seqOutputFile s m)
        = some (specGroups T T.init 0 (seqFrames fs s m)).flatten ∧
      (specGroups T T.init 0 (seqFrames fs s m)).length
        = (imageFullPaths (fsAfterOpen fs s m) s).length ∧
      r.frames = (imageFullPaths (fsAfterOpen fs s m) s).length ∧
      ∀ (k : Nat) (hk : k < (seqFrames fs s m).length)
        (hk2 : k < (specGroups T T.init 0 (seqFrames fs s m)).length),
        ∀ l ∈ (specGroups T T.init 0 (seqFrames fs s m))[k],
          ∃ t : Tracking, l = row k t := by
  refine ⟨_, detectAndTrack_run C T fs clock nextId s m h1 h2, ?_, ?_, ?_, ?_, ?_, ?_⟩
  · exact sortPaths_sorted _
  · exact sortPaths_perm _
  · show ((fsAfterOpen fs s m).writeFile (seqOutputFile s m)
        (specRows T T.init 0 (seqFrames fs s m))).readFile (seqOutputFile s m) = _
    have hnof : (ensureOutputDir fs s m).fileExists (seqOutputFile s m) = false := by
      have := h2
      unfold FileSystem.pathExists at this
      exact (Bool.or_eq_false_iff.mp this).2
    exact readFile_writeFile_createFile (ensureOutputDir fs s m) _ _ hnof
  · rw [specGroups_length]
    exact sortPaths_length _
  · show (seqFrames fs s m).length = _
    exact sortPaths_length _
  · intro k hk hk2 l hl
    rw [specGroups_getElem T (seqFrames fs s m) T.init 0 k hk hk2] at hl
    simp only [Nat.zero_add, frameRows, List.mem_map] at hl
    obtain ⟨t, _, rfl⟩ := hl
    exact ⟨t, rfl⟩

/-- A filesystem with a single sequence `"c"` whose images directory holds
one file, and no pre-existing artifact. -/
def fsOneImage : FileSystem :=
  ⟨[["data", "c", "images"]], [(["data", "c", "images", "f1"], [])]⟩

/-- Witness for C2 at a concrete one-image filesystem. -/
theorem C2_lexicographic_frame_enumeration_witness :
    fsOneImage.isDirectory (seqInputDir "c") = true ∧
    (ensureOutputDir fsOneImage "c" "m").pathExists (seqOutputFile "c" "m") = false ∧
    (∃ r : SeqOk, detectAndTrack zeroCosts silentTracker fsOneImage 0 0 "c" "m" = .ok r ∧
      List.Sorted (· ≤ ·) (seqFrames fsOneImage "c" "m") ∧
      (seqFrames fsOneImage "c" "m").Perm (imageFullPaths (fsAfterOpen fsOneImage "c" "m") "c") ∧
      r.fs.readFile (seqOutputFile "c" "m")
        = some (specGroups silentTracker silentTracker.init 0 (seqFrames fsOneImage "c" "m")).flatten ∧
      (specGroups silentTracker silentTracker.init 0 (seqFrames fsOneImage "c" "m")).length
        = (imageFullPaths (fsAfterOpen fsOneImage "c" "m") "c").length ∧
      r.frames = (imageFullPaths (fsAfterOpen fsOneImage "c" "m") "c").length ∧
      ∀ (k : Nat) (hk : k < (seqFrames fsOneImage "c" "m").length)
        (hk2 : k < (specGroups silentTracker silentTracker.init 0
          (seqFrames fsOneImage "c" "m")).length),
        ∀ l ∈ (specGroups silentTracker silentTracker.init 0
            (seqFrames fsOneImage "c" "m"))[k], ∃ t : Tracking, l = row k t) :=
  ⟨by decide, by decide,
    C2_lexicographic_frame_enumeration zeroCosts silentTracker fsOneImage 0 0 "c" "m"
      (by decide) (by decide)⟩

/-! ## Claim C8 -/

/-- Claim C8: on the processing path, the accumulated duration is exactly
the sum over the enumerated frames of the cost of the single
detect-and-track call (`C.process`); the decode and write costs advance
the wall clock but contribute nothing to the accumulated duration. -/
theorem C8_duration_is_pure_process_time {σ : Type} (C : Costs) (T : TrackerModel σ)
    (fs : FileSystem) (clock : ℚ) (nextId : Nat) (s m : String)
    (h1 : fs.isDirectory (seqInputDir s) = true)
    (h2 : (ensureOutputDir fs s m).pathExists (seqOutputFile s m) = false) :
    ∃ r : SeqOk, detectAndTrack C T fs clock nextId s m = .ok r ∧
      r.duration = ((seqFrames fs s m).map C.process).sum ∧
      r.clock = clock + ((seqFrames fs s m).map
        (fun p => C.decode p + C.process p + C.write p)).sum := by
  exact ⟨_, detectAndTrack_run C T fs clock nextId s m h1 h2, rfl, rfl⟩

/-- Witness for C8 at the concrete one-image filesystem, with distinct
nonzero decode/process/write costs. -/
theorem C8_duration_is_pure_process_time_witness :
    fsOneImage.isDirectory (seqInputDir "c") = true ∧
    (ensureOutputDir fsOneImage "c" "m").pathExists (seqOutputFile "c" "m") = false ∧
    (∃ r : SeqOk,
      detectAndTrack ⟨fun _ => 7, fun _ => 3, fun _ => 11⟩ silentTracker fsOneImage
          0 0 "c" "m" = .ok r ∧
      r.duration = ((seqFrames fsOneImage "c" "m").map
        (⟨fun _ => 7, fun _ => 3, fun _ => 11⟩ : Costs).process).sum ∧
      r.clock = 0 + ((seqFrames fsOneImage "c" "m").map
        (fun p => (⟨fun _ => 7, fun _ => 3, fun _ => 11⟩ : Costs).decode p
          + (⟨fun _ => 7, fun _ => 3, fun _ => 11⟩ : Costs).process p
          + (⟨fun _ => 7, fun _ => 3, fun _ => 11⟩ : Costs).write p)).sum) :=
  ⟨by decide, by decide,
    C8_duration_is_pure_process_time ⟨fun _ => 7, fun _ => 3, fun _ => 11⟩ silentTracker
      fsOneImage 0 0 "c" "m" (by decide) (by decide)⟩

/-! ## Claim C6 -/

/-- Claim C6: when the driver reaches a sequence whose images directory does
not exist, the whole run aborts immediately with `DirectoryNotFound`: the
filesystem is returned exactly as it was (no artifact is created for the
sequence), the sequence is not skipped-and-continued, and the remaining
batch lines — universally quantified on the left, absent on the right —
are never processed. -/
theorem C6_missing_images_dir_aborts_run {σ : Type} (C : Costs) (T : TrackerModel σ)
    (m : String) (fs : FileSystem) (clock : ℚ) (nextId : Nat) (cumDur : ℚ)
    (cumFrames : Nat) (reports : List SeqReport) (bad : String) (post : List String)
    (h : fs.isDirectory (seqInputDir bad) = false) :
    runBatchAux C T m fs clock nextId cumDur cumFrames reports (bad :: post)
      = .error (.dirNotFound (seqInputDir bad), fs) := by
  simp only [runBatchAux]
  rw [detectAndTrack_fatal C T fs clock nextId bad m h]

/-- Witness for C6: an empty filesystem, a missing sequence and a
follow-up line that is never reached. -/
theorem C6_missing_images_dir_aborts_run_witness :
    emptyFS.isDirectory (seqInputDir "x") = false ∧
    runBatchAux zeroCosts silentTracker "m" emptyFS 0 0 0 0 [] ["x", "y"]
      = .error (.dirNotFound (seqInputDir "x"), emptyFS) :=
  ⟨by decide, C6_missing_images_dir_aborts_run zeroCosts silentTracker "m" emptyFS
    0 0 0 0 [] "x" ["y"] (by decide)⟩

/-! ## Claim C10 -/

/-- Claim C10: every line of the batch file — the empty line included — is
passed verbatim to the per-sequence pipeline: a completed run carries
exactly one report per batch line, whose `name` is the line itself with no
trimming or skipping; and the blank line's images directory is the data
directory joined with an empty path component (and then `"images"`). -/
theorem C10_batch_lines_passed_verbatim {σ : Type} (C : Costs) (T : TrackerModel σ)
    (m : String) :
    (∀ (batchLines : List String) (fs : FileSystem) (clock : ℚ) (nextId : Nat)
        (cumDur : ℚ) (cumFrames : Nat) (reports : List SeqReport) (b : BatchOk),
      runBatchAux C T m fs clock nextId cumDur cumFrames reports batchLines = .ok b →
      b.reports.map (fun rep => rep.name)
        = reports.map (fun rep => rep.name) ++ batchLines)
    ∧ seqInputDir "" = dataDirPath ++ ["", "images"] := by
  refine ⟨?_, rfl⟩
  intro batchLines
  induction batchLines with
  | nil =>
    intro fs clock nextId cumDur cumFrames reports b hb
    simp only [runBatchAux] at hb
    cases hb
    simp
  | cons name rest ih =>
    intro fs clock nextId cumDur cumFrames reports b hb
    simp only [runBatchAux] at hb
    cases hdt : detectAndTrack C T fs clock nextId name m with
    | error e => rw [hdt] at hb; cases hb
    | ok r =>
      rw [hdt] at hb
      have hrec := ih _ _ _ _ _ _ _ hb
      rw [hrec]
      simp

/-- A filesystem where both the blank-named sequence and sequence `"a"`
have images directories and already-existing artifacts. -/
def fsBlankLine : FileSystem :=
  ⟨[["data", "", "images"], ["data", "a", "images"]],
   [(["data", "results", "", "m", "track.txt"], []),
    (["data", "results", "a", "m", "track.txt"], [])]⟩

/-- Witness for C10: a batch file whose first line is blank; the completed
run reports the blank line verbatim as a sequence name. -/
theorem C10_batch_lines_passed_verbatim_witness :
    ∃ b : BatchOk,
      runBatchAux zeroCosts silentTracker "m" fsBlankLine 0 0 0 0 [] ["", "a"] = .ok b ∧
      b.reports.map (fun rep => rep.name)
        = ([] : List SeqReport).map (fun rep => rep.name) ++ ["", "a"] := by
  obtain ⟨b, hb⟩ : ∃ b, runBatchAux zeroCosts silentTracker "m" fsBlankLine
      0 0 0 0 [] ["", "a"] = .ok b := ⟨_, rfl⟩
  exact ⟨b, hb, (C10_batch_lines_passed_verbatim zeroCosts silentTracker "m").1
    ["", "a"] fsBlankLine 0 0 0 0 [] b hb⟩

/-! ## Claim C4 -/

theorem runBatchAux_reports_fps {σ : Type} (C : Costs) (T : TrackerModel σ) (m : String) :
    ∀ (batchLines : List String) (fs : FileSystem) (clock : ℚ) (nextId : Nat)
      (cumDur : ℚ) (cumFrames : Nat) (reports : List SeqReport) (b : BatchOk),
      runBatchAux C T m fs clock nextId cumDur cumFrames reports batchLines = .ok b →
      ∀ rep ∈ b.reports, rep ∈ reports ∨ rep.fps = reportedFps rep.frames rep.durationMs := by
  intro batchLines
  induction batchLines with
  | nil =>
    intro fs clock nextId cumDur cumFrames reports b hb
    simp only [runBatchAux] at hb
    cases hb
    exact fun rep hrep => Or.inl hrep
  | cons name rest ih =>
    intro fs clock nextId cumDur cumFrames reports b hb
    simp only [runBatchAux] at hb
    cases hdt : detectAndTrack C T fs clock nextId name m with
    | error e => rw [hdt] at hb; cases hb
    | ok r =>
      rw [hdt] at hb
      intro rep hrep
      rcases ih _ _ _ _ _ _ _ hb rep hrep with hmem | heq
      · rcases List.mem_append.mp hmem with hold | hnew
        · exact Or.inl hold
        · right
          have hr : rep = ⟨name, ratTrunc r.duration,
              reportedFps r.frames (ratTrunc r.duration), r.frames, r.trackerId⟩ := by
            simpa using hnew
          rw [hr]
      · exact Or.inr heq

/-- Claim C4: the throughput computation `double(frameCount*1000)/durationMs`
(lines 154–156 and 161–163) cannot raise a division error: under the IEEE
division model, a zero frame count or a zero-millisecond duration makes it
yield one of the sentinel values `0`, `+∞` or NaN instead of crashing; and
every per-sequence fps figure of a completed batch run is computed by
exactly this function. -/
theorem C4_throughput_sentinel_not_crash {σ : Type} (C : Costs) (T : TrackerModel σ)
    (m : String) :
    (∀ (frames : Nat) (durationMs : Int), frames = 0 ∨ durationMs = 0 →
      reportedFps frames durationMs = .finite 0 ∨ reportedFps frames durationMs = .posInf
        ∨ reportedFps frames durationMs = .nan)
    ∧ (∀ (batchLines : List String) (fs : FileSystem) (clock : ℚ) (nextId : Nat)
        (cumDur : ℚ) (cumFrames : Nat) (reports : List SeqReport) (b : BatchOk),
      runBatchAux C T m fs clock nextId cumDur cumFrames reports batchLines = .ok b →
      ∀ rep ∈ b.reports, rep ∈ reports ∨ rep.fps = reportedFps rep.frames rep.durationMs) := by
  refine ⟨?_, runBatchAux_reports_fps C T m⟩
  intro frames durationMs h
  unfold reportedFps fpDiv
  rcases h with rfl | rfl
  · by_cases hd : (durationMs : ℚ) = 0
    · simp [hd]
    · simp [hd]
  · by_cases hf : frames = 0
    · subst hf; simp
    · have hfq : (0 : ℚ) < (frames : ℚ) := by exact_mod_cast Nat.pos_of_ne_zero hf
      have hpos : (0 : ℚ) < (frames : ℚ) * 1000 := mul_pos hfq (by norm_num)
      simp [hpos.ne', hpos]

/-- Witness for C4: a positive frame count over a zero-millisecond
duration, and a completed concrete batch run. -/
theorem C4_throughput_sentinel_not_crash_witness :
    ((5 : Nat) = 0 ∨ (0 : Int) = 0) ∧
    (reportedFps 5 0 = .finite 0 ∨ reportedFps 5 0 = .posInf ∨ reportedFps 5 0 = .nan) ∧
    (∃ b : BatchOk,
      runBatchAux zeroCosts silentTracker "m" fsSkip 0 0 0 0 [] ["a"] = .ok b ∧
      ∀ rep ∈ b.reports, rep ∈ ([] : List SeqReport)
        ∨ rep.fps = reportedFps rep.frames rep.durationMs) := by
  refine ⟨Or.inr rfl,
    (C4_throughput_sentinel_not_crash zeroCosts silentTracker "m").1 5 0 (Or.inr rfl), ?_⟩
  obtain ⟨b, hb⟩ : ∃ b, runBatchAux zeroCosts silentTracker "m" fsSkip
      0 0 0 0 [] ["a"] = .ok b := ⟨_, rfl⟩
  exact ⟨b, hb, (C4_throughput_sentinel_not_crash zeroCosts silentTracker "m").2
    ["a"] fsSkip 0 0 0 0 [] b hb⟩

/-! ## Claim C5 -/

/-- Claim C5 (defect in the code): line 147 declares
`std::chrono::duration<double, std::milli> cumulativeDuration;` with no
initializer; a `chrono::duration` over `double` default-initializes its
representation, so the accumulator starts at an indeterminate value
(`cumulativeFrameCount` right below it *is* initialized to 0).  Taking the
indeterminate start to be `1`, an empty batch — whose per-sequence
durations sum to `0` — reports a total duration of `1`: the reported batch
aggregate does not equal the sum of the per-sequence durations. -/
theorem C5_uninitialized_duration_accumulator :
    ∃ b : BatchOk,
      runBatch zeroCosts silentTracker "m" emptyFS 0 1 [] = .ok b ∧
      b.reports = [] ∧
      (b.reports.map (fun rep => (rep.durationMs : ℚ))).sum = 0 ∧
      b.totalDurationQ = 1 ∧ b.totalMs = 1 ∧
      b.totalDurationQ ≠ (b.reports.map (fun rep => (rep.durationMs : ℚ))).sum := by
  refine ⟨⟨emptyFS, 0, [], 1, 1, .finite 0, 0, 0⟩, ?_, rfl, rfl, rfl, rfl, by norm_num⟩
  show runBatchAux zeroCosts silentTracker "m" emptyFS 0 0 1 0 [] [] = _
  simp only [runBatchAux]
  norm_num [ratTrunc, reportedFps, fpDiv]

/-! ## Claim C7 -/

theorem detectAndTrack_trackerId_cases {σ : Type} (C : Costs) (T : TrackerModel σ)
    (fs : FileSystem) (clock : ℚ) (nextId : Nat) (s m : String) (r : SeqOk)
    (h : detectAndTrack C T fs clock nextId s m = .ok r) :
    (r.trackerId = none ∧ r.nextId = nextId)
      ∨ (r.trackerId = some nextId ∧ r.nextId = nextId + 1) := by
  unfold detectAndTrack at h
  split at h
  · cases h
  · split at h
    · cases h; exact Or.inl ⟨rfl, rfl⟩
    · cases h; exact Or.inr ⟨rfl, rfl⟩

theorem runBatchAux_trackerIds {σ : Type} (C : Costs) (T : TrackerModel σ) (m : String) :
    ∀ (batchLines : List String) (fs : FileSystem) (clock : ℚ) (nextId : Nat)
      (cumDur : ℚ) (cumFrames : Nat) (reports : List SeqReport) (b : BatchOk),
      runBatchAux C T m fs clock nextId cumDur cumFrames reports batchLines = .ok b →
      ∃ newIds : List Nat,
        b.reports.filterMap (fun rep => rep.trackerId)
          = reports.filterMap (fun rep => rep.trackerId) ++ newIds ∧
        newIds.Pairwise (· < ·) ∧ (∀ j ∈ newIds, nextId ≤ j ∧ j < b.nextId) ∧
        nextId ≤ b.nextId := by
  intro batchLines
  induction batchLines with
  | nil =>
    intro fs clock nextId cumDur cumFrames reports b hb
    simp only [runBatchAux] at hb
    cases hb
    exact ⟨[], by simp, List.Pairwise.nil, by simp, le_refl _⟩
  | cons name rest ih =>
    intro fs clock nextId cumDur cumFrames reports b hb
    simp only [runBatchAux] at hb
    cases hdt : detectAndTrack C T fs clock nextId name m with
    | error e => rw [hdt] at hb; cases hb
    | ok r =>
      rw [hdt] at hb
      obtain ⟨newIds, h1, h2, h3, h4⟩ := ih _ _ _ _ _ _ _ hb
      rcases detectAndTrack_trackerId_cases C T fs clock nextId name m r hdt with
        ⟨ht, hn⟩ | ⟨ht, hn⟩
      · refine ⟨newIds, ?_, h2, ?_, ?_⟩
        · rw [h1]; simp [ht]
        · intro j hj
          have := h3 j hj
          omega
        · omega
      · refine ⟨nextId :: newIds, ?_, ?_, ?_, ?_⟩
        · rw [h1]; simp [ht]
        · refine List.Pairwise.cons ?_ h2
          intro j hj
          have := h3 j hj
          omega
        · intro j hj
          rcases List.mem_cons.mp hj with rfl | hj'
          · omega
          · have := h3 j hj'
            omega
        · omega

/-- Claim C7: (i) over a whole batch run, the tracker-instance identities of
all processed sequences are strictly increasing, hence pairwise distinct —
no two sequences ever share a tracker instance; (ii) each processed
sequence gets a freshly constructed instance, and its artifact is the walk
from the fresh state `T.init`: the rows of frame `k` are produced by
`step` applied to the state folded from `T.init` over exactly this
sequence's first `k` frames, so state persists across frames within a
sequence but never leaks in from another sequence. -/
theorem C7_fresh_tracker_instance_per_sequence {σ : Type} (C : Costs)
    (T : TrackerModel σ) (m : String) :
    (∀ (batchLines : List String) (fs : FileSystem) (clock initDur : ℚ) (b : BatchOk),
      runBatch C T m fs clock initDur batchLines = .ok b →
      (b.reports.filterMap (fun rep => rep.trackerId)).Pairwise (· ≠ ·))
    ∧ (∀ (fs : FileSystem) (clock : ℚ) (nextId : Nat) (s : String),
        fs.isDirectory (seqInputDir s) = true →
        (ensureOutputDir fs s m).pathExists (seqOutputFile s m) = false →
        ∃ r : SeqOk, detectAndTrack C T fs clock nextId s m = .ok r ∧
          r.trackerId = some nextId ∧ r.nextId = nextId + 1 ∧
          r.fs.readFile (seqOutputFile s m)
            = some (specRows T T.init 0 (seqFrames fs s m)) ∧
          ∀ (k : Nat) (hk : k < (seqFrames fs s m).length)
            (hk2 : k < (specGroups T T.init 0 (seqFrames fs s m)).length),
            (specGroups T T.init 0 (seqFrames fs s m))[k]
              = frameRows k (T.step (foldState T T.init ((seqFrames fs s m).take k))
                  (seqFrames fs s m)[k]).2) := by
  constructor
  · intro batchLines fs clock initDur b hb
    obtain ⟨newIds, h1, h2, h3, h4⟩ :=
      runBatchAux_trackerIds C T m batchLines fs clock 0 initDur 0 [] b hb
    rw [h1]
    simp only [List.filterMap_nil, List.nil_append]
    exact h2.imp Nat.ne_of_lt
  · intro fs clock nextId s h1 h2
    refine ⟨_, detectAndTrack_run C T fs clock nextId s m h1 h2, rfl, rfl, ?_, ?_⟩
    · show ((fsAfterOpen fs s m).writeFile (seqOutputFile s m)
          (specRows T T.init 0 (seqFrames fs s m))).readFile (seqOutputFile s m) = _
      have hnof : (ensureOutputDir fs s m).fileExists (seqOutputFile s m) = false := by
        have hx := h2
        unfold FileSystem.pathExists at hx
        exact (Bool.or_eq_false_iff.mp hx).2
      exact readFile_writeFile_createFile (ensureOutputDir fs s m) _ _ hnof
    · intro k hk hk2
      have hg := specGroups_getElem T (seqFrames fs s m) T.init 0 k hk hk2
      simpa using hg

/-- Witness for C7: a completed batch run with distinct instance ids, and
a concrete processed sequence. -/
theorem C7_fresh_tracker_instance_per_sequence_witness :
    (∃ b : BatchOk, runBatch zeroCosts silentTracker "m" fsSkip 0 0 ["a"] = .ok b ∧
      (b.reports.filterMap (fun rep => rep.trackerId)).Pairwise (· ≠ ·)) ∧
    fsOneImage.isDirectory (seqInputDir "c") = true ∧
    (ensureOutputDir fsOneImage "c" "m").pathExists (seqOutputFile "c" "m") = false ∧
    (∃ r : SeqOk, detectAndTrack zeroCosts silentTracker fsOneImage 0 0 "c" "m" = .ok r ∧
      r.trackerId = some 0 ∧ r.nextId = 0 + 1 ∧
      r.fs.readFile (seqOutputFile "c" "m")
        = some (specRows silentTracker silentTracker.init 0 (seqFrames fsOneImage "c" "m")) ∧
      ∀ (k : Nat) (hk : k < (seqFrames fsOneImage "c" "m").length)
        (hk2 : k < (specGroups silentTracker silentTracker.init 0
          (seqFrames fsOneImage "c" "m")).length),
        (specGroups silentTracker silentTracker.init 0 (seqFrames fsOneImage "c" "m"))[k]
          = frameRows k (silentTracker.step
              (foldState silentTracker silentTracker.init
                ((seqFrames fsOneImage "c" "m").take k))
              (seqFrames fsOneImage "c" "m")[k]).2) := by
  constructor
  · obtain ⟨b, hb⟩ : ∃ b, runBatch zeroCosts silentTracker "m" fsSkip 0 0 ["a"] = .ok b :=
      ⟨_, rfl⟩
    exact ⟨b, hb, (C7_fresh_tracker_instance_per_sequence zeroCosts silentTracker "m").1
      ["a"] fsSkip 0 0 b hb⟩
  · exact ⟨by decide, by decide,
      (C7_fresh_tracker_instance_per_sequence zeroCosts silentTracker "m").2
        fsOneImage 0 0 "c" (by decide) (by decide)⟩
